import Mathlib

/-
Verification of the typed-redis record-mapping layer.

The embedding follows src/typed_redis/redis.py. The record engine there is
the class RedisModel: a pydantic BaseModel subclass whose instances carry the
field values and a private deleted flag, whose class carries an optional
bound Redis client, and whose operations (create, update, delete, get, and
the callable shorthand) are embedded below as pure functions threading the
store state explicitly and returning Except values in place of raised
exceptions.

External collaborators are modelled from their documented interfaces:
  - The pydantic validation layer. A record serializes to one canonical JSON
    text holding exactly its field mapping, and deserialization re-validates
    that mapping against the schema. We model the wire value by the field
    mapping the canonical text encodes (the encoding is injective, so this
    abstraction is faithful), and we model the pydantic behaviours the
    engine relies on: construction validates every field against its
    declared type; plain attribute assignment on a model whose configuration
    does not enable assignment validation checks only that the attribute is
    a declared field and assigns WITHOUT re-validating the value; parsing a
    missing (None) input raises a validation error.
  - The Redis client. The store is an association list from keys to stored
    wire values; the client either returns values as decoded text or as the
    raw utf-8 bytes of that text, controlled by its decodeResponses
    configuration. Since utf-8 encoding of the canonical text is lossless,
    a bytes value is represented by the wire payload it decodes to.

Parts of the repository referenced only by its tests (the Store factory
variant with model_name, the primary-key annotation discovery and the
derived key helpers) are not under src/; where a definition embeds those,
its doc comment says so and starts with the words Modelled from the spec.
-/

namespace TypedRedis

/-- Semantic field types of the schemas used by the repository. -/
inductive RType
  | int
  | str
  | bool
deriving DecidableEq

/-- Field values. -/
inductive RValue
  | int (i : Int)
  | str (s : String)
  | bool (b : Bool)
deriving DecidableEq

/-- Whether a value satisfies a declared field type (pydantic validation of
one field; pydantic v2 rejects a bool where an int is declared). -/
def RValue.hasType : RValue → RType → Bool
  | .int _, .int => true
  | .str _, .str => true
  | .bool _, .bool => true
  | _, _ => false

/-- Textual representation of a value, as a Python f-string renders it. -/
def RValue.textRepr : RValue → String
  | .int i => toString i
  | .str s => s
  | .bool b => cond b "True" "False"

/-- One declared schema field. `isPrimary` records the PrimaryRedisKey
annotation on the field (declared in the repository test fixtures). -/
structure FieldSpec where
  name : String
  ftype : RType
  isPrimary : Bool
deriving DecidableEq

/-- The wire value: the field mapping encoded by the canonical JSON text. -/
abbrev Payload := List (String × RValue)

/-- A stored value as the client hands it back: decoded text, or the raw
utf-8 bytes of the same canonical text (represented by the payload the
bytes decode to, since utf-8 is lossless on the canonical text). -/
inductive StoredVal
  | txt (p : Payload)
  | bin (p : Payload)
deriving DecidableEq

/-- The key-value store contents: an association list from keys to the
payload stored at each key. -/
abbrev Store := List (String × Payload)

/-- Modelled Redis client handle: its only behaviour the engine observes is
whether get returns decoded text or raw bytes. -/
structure RedisClient where
  decodeResponses : Bool
deriving DecidableEq

/-- A bound record class: the model name (key-namespace prefix), the schema
fields, and the optional class-level client (None when unbound). -/
structure ModelClass where
  modelName : String
  fields : List FieldSpec
  redis : Option RedisClient
deriving DecidableEq

/-- A record instance: its field values and the private deleted flag
(default false in the source). -/
structure Model where
  values : Payload
  deleted : Bool
deriving DecidableEq

/-- Errors the engine raises, one constructor per exception site:
RuntimeError for a deleted model, RuntimeError for an unbound client,
ValueError from pydantic for assignment to an unknown field, pydantic
ValidationError, and the ValueError for zero or several identity fields. -/
inductive Err
  | deletedModel
  | unboundClient
  | noField (name : String)
  | validationError
  | noPrimaryKey
  | multiplePrimaryKeys
deriving DecidableEq

/-- Write options forwarded to the Redis set command, mirroring the
RedisKwargs TypedDict (every entry optional). -/
structure RedisKwargs where
  ex : Option Int := none
  px : Option Int := none
  nx : Option Bool := none
deriving DecidableEq

/-- Store commands the engine issues, with the arguments passed to each. -/
inductive Cmd
  | set (key : String) (data : Payload) (kwargs : RedisKwargs)
  | del (key : String)
  | get (key : String)
deriving DecidableEq

/-- Lookup in an association list (first match wins, as in a dict). -/
def assocLookup {α : Type} : List (String × α) → String → Option α
  | [], _ => none
  | (k2, v) :: rest, k => if k2 = k then some v else assocLookup rest k

/-- Overwrite or append a binding in an association list (dict assignment
and the Redis SET command). -/
def assocSet {α : Type} : List (String × α) → String → α → List (String × α)
  | [], k, v => [(k, v)]
  | (k2, w) :: rest, k, v =>
      if k2 = k then (k, v) :: rest else (k2, w) :: assocSet rest k v

/-- Remove a binding from an association list (the Redis DELETE command). -/
def assocDel {α : Type} : List (String × α) → String → List (String × α)
  | [], _ => []
  | (k2, w) :: rest, k =>
      if k2 = k then assocDel rest k else (k2, w) :: assocDel rest k

/-- Whether a payload carries exactly the schema fields, in order, each
value well-typed: the validation pydantic applies at construction and when
parsing the canonical JSON text. -/
def validatePayload : List FieldSpec → Payload → Bool
  | [], [] => true
  | f :: fs, (n, v) :: rest =>
      n = f.name && v.hasType f.ftype && validatePayload fs rest
  | _, _ => false

/-- Pydantic model construction: validate the given field values and build
the instance with the deleted flag at its default (false). -/
def RedisModel.init (cls : ModelClass) (p : Payload) : Except Err Model :=
  if validatePayload cls.fields p then .ok { values := p, deleted := false }
  else .error .validationError

/-- model_dump_json: the canonical serialization of the instance, modelled
by the field mapping the JSON text encodes. -/
def RedisModel.model_dump_json (m : Model) : Payload :=
  m.values

/-- model_validate_json: parse and re-validate a stored value. Pydantic
accepts text or bytes input; passing it the None a missed store read
returns raises a ValidationError. -/
def RedisModel.model_validate_json (cls : ModelClass) :
    Option StoredVal → Except Err Model
  | none => .error .validationError
  | some (.txt p) =>
      if validatePayload cls.fields p then .ok { values := p, deleted := false }
      else .error .validationError
  | some (.bin p) =>
      if validatePayload cls.fields p then .ok { values := p, deleted := false }
      else .error .validationError

/-- The client get command: look the key up and hand the payload back as
text or as bytes according to the client configuration. -/
def RedisClient.clientGet (c : RedisClient) (store : Store) (key : String) :
    Option StoredVal :=
  (assocLookup store key).map fun p =>
    if c.decodeResponses then .txt p else .bin p

/-- Source _assert_not_deleted: raise RuntimeError when the instance has
been deleted. -/
def RedisModel._assert_not_deleted (m : Model) : Except Err Unit :=
  if m.deleted then .error .deletedModel else .ok ()

/-- Source _assert_redis_client: raise RuntimeError when no client is
bound on the class. -/
def RedisModel._assert_redis_client (cls : ModelClass) : Except Err Unit :=
  match cls.redis with
  | none => .error .unboundClient
  | some _ => .ok ()

/-- Modelled from the spec: the class helper building a key from an
identity value, Key(identityValue) = modelName ++ ":" ++ value. The helper
itself (named _build_redis_key in the tests) is not under src/. It is pure:
it reads only the model name. -/
def RedisModel._build_redis_key (cls : ModelClass) (v : RValue) : String :=
  cls.modelName ++ ":" ++ v.textRepr

/-- Modelled from the spec: the instance key property declared abstract in
src (redis_key). The concrete implementation discovering the annotated
identity field is not under src/: it resolves the identity field lazily,
failing when zero or several identity fields are declared, and otherwise
builds the key from the current value of that field. A constructed
instance always carries every schema field, so the lookup default is never
reached on validated instances. -/
def RedisModel.redis_key (cls : ModelClass) (m : Model) : Except Err String :=
  match cls.fields.filter (fun f => f.isPrimary) with
  | [] => .error .noPrimaryKey
  | [f] =>
      .ok (RedisModel._build_redis_key cls
        ((assocLookup m.values f.name).getD (.str "")))
  | _ => .error .multiplePrimaryKeys

/-- Source _client property: assert not deleted, assert a client is bound,
then return the bound client. -/
def RedisModel._client (cls : ModelClass) (m : Model) :
    Except Err RedisClient :=
  match RedisModel._assert_not_deleted m with
  | .error e => .error e
  | .ok _ =>
      match RedisModel._assert_redis_client cls with
      | .error e => .error e
      | .ok _ =>
          match cls.redis with
          | some c => .ok c
          | none => .error .unboundClient

deriving instance DecidableEq for Except

/-- Result of one instance operation: the outcome (raised error or unit),
the in-memory instance after the call, the store contents after the call,
and the store commands issued with their exact arguments. -/
structure OpResult where
  res : Except Err Unit
  inst : Model
  store : Store
  cmds : List Cmd
deriving DecidableEq

/-- Result of the class-level get: the parsed model or the raised error,
and the store commands issued. -/
structure GetResult where
  res : Except Err Model
  cmds : List Cmd
deriving DecidableEq

/-- Source _store_to_redis: serialize the instance, then evaluate the
_client property (deleted and binding guards), then the redis_key
property, then issue the set command with the forwarded kwargs. -/
def RedisModel._store_to_redis (cls : ModelClass) (m : Model)
    (kwargs : RedisKwargs) (store : Store) : OpResult :=
  let data := RedisModel.model_dump_json m
  match RedisModel._client cls m with
  | .error e => ⟨.error e, m, store, []⟩
  | .ok _ =>
      match RedisModel.redis_key cls m with
      | .error e => ⟨.error e, m, store, []⟩
      | .ok k => ⟨.ok (), m, assocSet store k data, [.set k data kwargs]⟩

/-- Source create: store the model, forwarding the kwargs unchanged. -/
def RedisModel.create (cls : ModelClass) (m : Model) (kwargs : RedisKwargs)
    (store : Store) : OpResult :=
  RedisModel._store_to_redis cls m kwargs store

/-- Whether a name is a declared schema field (the model_fields membership
check pydantic assignment performs). -/
def hasField (cls : ModelClass) (name : String) : Bool :=
  cls.fields.any fun f => f.name = name

/-- Pydantic BaseModel attribute assignment under the default model
configuration (the source class does not enable validate_assignment):
assignment to a name that is not a declared field raises ValueError, and
assignment to a declared field stores the value without re-validating it. -/
def RedisModel.setattr (cls : ModelClass) (m : Model) (name : String)
    (v : RValue) : Except Err Model :=
  if hasField cls name then
    .ok { m with values := assocSet m.values name v }
  else
    .error (.noField name)

/-- The update loop over the changes mapping: apply each assignment in
order; on a failing assignment, keep the instance as mutated by the
earlier assignments and report the error. -/
def RedisModel.applyChanges (cls : ModelClass) (m : Model) :
    List (String × RValue) → Model × Option Err
  | [] => (m, none)
  | (n, v) :: rest =>
      match RedisModel.setattr cls m n v with
      | .ok m2 => RedisModel.applyChanges cls m2 rest
      | .error e => (m, some e)

/-- Source update: apply every change by attribute assignment, then store
the model with no kwargs. -/
def RedisModel.update (cls : ModelClass) (m : Model)
    (changes : List (String × RValue)) (store : Store) : OpResult :=
  match RedisModel.applyChanges cls m changes with
  | (m2, some e) => ⟨.error e, m2, store, []⟩
  | (m2, none) => RedisModel._store_to_redis cls m2 {} store

/-- Source delete: evaluate the _client property (deleted and binding
guards), then the redis_key property, issue the delete command, and set
the deleted flag. -/
def RedisModel.delete (cls : ModelClass) (m : Model) (store : Store) :
    OpResult :=
  match RedisModel._client cls m with
  | .error e => ⟨.error e, m, store, []⟩
  | .ok _ =>
      match RedisModel.redis_key cls m with
      | .error e => ⟨.error e, m, store, []⟩
      | .ok k => ⟨.ok (), { m with deleted := true }, assocDel store k, [.del k]⟩

/-- Source get (classmethod): assert a client is bound, read the key, if
the returned value is bytes decode it to text, then parse it with
model_validate_json. There is no branch for a missing value: the None from
a never-written key flows into model_validate_json. -/
def RedisModel.get (cls : ModelClass) (key : String) (store : Store) :
    GetResult :=
  match cls.redis with
  | none => ⟨.error .unboundClient, []⟩
  | some c =>
      let data := c.clientGet store key
      let decoded := match data with
        | some (.bin p) => some (.txt p)
        | d => d
      ⟨RedisModel.model_validate_json cls decoded, [.get key]⟩

/-- Modelled from the spec: the class-level Get taking the identity value,
reading Key(identityValue). The key derivation from the identity value is
not under src/ (the src get receives the final key string); the store read
and deserialization are the src get. -/
def RedisModel.getById (cls : ModelClass) (v : RValue) (store : Store) :
    GetResult :=
  RedisModel.get cls (RedisModel._build_redis_key cls v) store

/-- Source callable shorthand: awaiting the instance runs create with no
kwargs. -/
def RedisModel.call (cls : ModelClass) (m : Model) (store : Store) :
    OpResult :=
  RedisModel.create cls m {} store

/-- The in-memory instance after every change in a list has been applied
by attribute assignment, in order. -/
def applyAll (m : Model) (changes : List (String × RValue)) : Model :=
  changes.foldl (fun m2 nv => { m2 with values := assocSet m2.values nv.1 nv.2 }) m

/-- The configuration error the lazy identity-field check reports: no
identity field when none is declared, otherwise the several-fields error. -/
def configErr (cls : ModelClass) : Err :=
  if cls.fields.filter (fun f => f.isPrimary) = [] then .noPrimaryKey
  else .multiplePrimaryKeys

/-- The user record class of the repository test fixtures: integer identity
field id, text field name, bound to a client returning decoded text. -/
def userCls : ModelClass :=
  { modelName := "user"
    fields := [⟨"id", .int, true⟩, ⟨"name", .str, false⟩]
    redis := some ⟨true⟩ }

/-- Field values of the persisted test user before an update. -/
def beforePayload : Payload := [("id", .int 4), ("name", .str "Before")]

/-- The same user after assignment of a boolean to the text field name: a
payload the schema rejects. -/
def invalidPayload : Payload := [("id", .int 4), ("name", .bool true)]

/-- The persisted test user instance. -/
def user4 : Model := { values := beforePayload, deleted := false }

/-- Store contents after the test user was created. -/
def store4 : Store := [("user:4", beforePayload)]

/-- The test user instance after a completed delete. -/
def deletedUser4 : Model := { values := beforePayload, deleted := true }

/-- A record class declaring zero identity fields, bound to a client. -/
def noPkCls : ModelClass :=
  { modelName := "nopk"
    fields := [⟨"id", .int, false⟩]
    redis := some ⟨true⟩ }

/-- A conforming payload for the zero-identity-field class. -/
def noPkPayload : Payload := [("id", .int 1)]

/-- Store contents holding a value under the key the zero-identity-field
class would derive for identity value 1. -/
def noPkStore : Store := [("nopk:1", noPkPayload)]

/-- An unbound record class (no client), as the repository test defines. -/
def unboundCls : ModelClass :=
  { modelName := "unbound"
    fields := [⟨"id", .int, true⟩]
    redis := none }

theorem client_of_deleted (cls : ModelClass) (m : Model)
    (h : m.deleted = true) :
    RedisModel._client cls m = .error .deletedModel := by
  simp [RedisModel._client, RedisModel._assert_not_deleted, h]

theorem client_of_unbound (cls : ModelClass) (m : Model)
    (hd : m.deleted = false) (hr : cls.redis = none) :
    RedisModel._client cls m = .error .unboundClient := by
  simp [RedisModel._client, RedisModel._assert_not_deleted,
    RedisModel._assert_redis_client, hd, hr]

theorem client_of_bound (cls : ModelClass) (m : Model) (c : RedisClient)
    (hd : m.deleted = false) (hr : cls.redis = some c) :
    RedisModel._client cls m = .ok c := by
  simp [RedisModel._client, RedisModel._assert_not_deleted,
    RedisModel._assert_redis_client, hd, hr]

theorem store_to_redis_of_client_error (cls : ModelClass) (m : Model)
    (kwargs : RedisKwargs) (store : Store) (e : Err)
    (h : RedisModel._client cls m = .error e) :
    RedisModel._store_to_redis cls m kwargs store = ⟨.error e, m, store, []⟩ := by
  simp [RedisModel._store_to_redis, h]

theorem store_to_redis_of_key_error (cls : ModelClass) (m : Model)
    (c : RedisClient) (kwargs : RedisKwargs) (store : Store) (e : Err)
    (hc : RedisModel._client cls m = .ok c)
    (hk : RedisModel.redis_key cls m = .error e) :
    RedisModel._store_to_redis cls m kwargs store = ⟨.error e, m, store, []⟩ := by
  simp [RedisModel._store_to_redis, hc, hk]

theorem store_to_redis_ok (cls : ModelClass) (m : Model) (c : RedisClient)
    (k : String) (kwargs : RedisKwargs) (store : Store)
    (hc : RedisModel._client cls m = .ok c)
    (hk : RedisModel.redis_key cls m = .ok k) :
    RedisModel._store_to_redis cls m kwargs store =
      ⟨.ok (), m, assocSet store k m.values, [.set k m.values kwargs]⟩ := by
  simp [RedisModel._store_to_redis, RedisModel.model_dump_json, hc, hk]

theorem applyChanges_of_valid (cls : ModelClass)
    (changes : List (String × RValue)) :
    ∀ m : Model, (∀ nv ∈ changes, hasField cls nv.1 = true) →
    RedisModel.applyChanges cls m changes = (applyAll m changes, none) := by
  induction changes with
  | nil =>
      intro m _
      rfl
  | cons nv rest ih =>
      intro m h
      have hn : hasField cls nv.1 = true := h nv (List.mem_cons_self nv rest)
      have hrest : ∀ x ∈ rest, hasField cls x.1 = true :=
        fun x hx => h x (List.mem_cons_of_mem nv hx)
      cases nv with
      | mk n v =>
          simp only [RedisModel.applyChanges, RedisModel.setattr, hn, if_true]
          rw [ih _ hrest]
          simp [applyAll]

theorem applyAll_deleted (changes : List (String × RValue)) :
    ∀ m : Model, (applyAll m changes).deleted = m.deleted := by
  induction changes with
  | nil =>
      intro m
      rfl
  | cons nv rest ih =>
      intro m
      simp only [applyAll, List.foldl] at ih ⊢
      rw [ih]

theorem assocLookup_assocSet_self {α : Type} (s : List (String × α))
    (k : String) (v : α) :
    assocLookup (assocSet s k v) k = some v := by
  induction s with
  | nil => simp [assocSet, assocLookup]
  | cons kv rest ih =>
      cases kv with
      | mk k2 w =>
          by_cases h : k2 = k
          · simp [assocSet, assocLookup, h]
          · simp [assocSet, assocLookup, h, ih]

theorem redis_key_of_single (cls : ModelClass) (m : Model) (f : FieldSpec)
    (v : RValue)
    (hf : cls.fields.filter (fun f2 => f2.isPrimary) = [f])
    (hv : assocLookup m.values f.name = some v) :
    RedisModel.redis_key cls m = .ok (cls.modelName ++ ":" ++ v.textRepr) := by
  simp [RedisModel.redis_key, hf, hv, RedisModel._build_redis_key]

theorem init_ok_inv (cls : ModelClass) (p : Payload) (m : Model)
    (h : RedisModel.init cls p = .ok m) :
    validatePayload cls.fields p = true ∧ m = ⟨p, false⟩ := by
  by_cases hv : validatePayload cls.fields p
  · refine ⟨hv, ?_⟩
    rw [RedisModel.init, if_pos hv] at h
    exact (Except.ok.inj h).symm
  · rw [RedisModel.init, if_neg hv] at h
    exact absurd h (by simp)

theorem validate_json_txt_of_valid (cls : ModelClass) (p : Payload)
    (h : validatePayload cls.fields p = true) :
    RedisModel.model_validate_json cls (some (.txt p)) = .ok ⟨p, false⟩ := by
  simp [RedisModel.model_validate_json, h]

theorem delete_ok_inv (cls : ModelClass) (m : Model) (store : Store)
    (h : (RedisModel.delete cls m store).res = .ok ()) :
    (RedisModel.delete cls m store).inst = { m with deleted := true } := by
  unfold RedisModel.delete at h ⊢
  cases hc : RedisModel._client cls m with
  | error e =>
      rw [hc] at h
      simp at h
  | ok c =>
      rw [hc] at h
      cases hk : RedisModel.redis_key cls m with
      | error e =>
          rw [hk] at h
          simp at h
      | ok k =>
          rfl

/-- C1: the claim states that a class-level Get for an identity value whose
key was never written returns an explicit absent result rather than
raising, with only transport and deserialization failures raised. The
source get has no missing-value branch: on a never-written key the None
returned by the client flows into model_validate_json, which raises a
validation error. This theorem evaluates the code at the failing input: a
bound class, an empty store, and a read of a never-written key ends in the
raised validation error, not an absent result. -/
theorem claim_C1_get_missing_key_raises :
    RedisModel.get userCls "user:1" ([] : Store) =
      ⟨.error .validationError, [.get "user:1"]⟩ := by
  rfl

/-- C2: the claim states that update routes every change through the same
validation path as construction and that an invalid value raises before
any store write, leaving the persisted value unchanged. The source update
assigns each change with plain attribute assignment and the model
configuration does not enable assignment validation, so an invalid value
is accepted silently and then written. This theorem evaluates the code at
the failing input: updating the text field name with a boolean succeeds,
overwrites the persisted payload with one the schema rejects, and the new
payload differs from the previously persisted one. -/
theorem claim_C2_update_invalid_value_persisted :
    RedisModel.update userCls user4 [("name", .bool true)] store4 =
      ⟨.ok (), { values := invalidPayload, deleted := false },
        [("user:4", invalidPayload)], [.set "user:4" invalidPayload {}]⟩ ∧
    validatePayload userCls.fields invalidPayload = false ∧
    invalidPayload ≠ beforePayload := by
  refine ⟨by rfl, by rfl, by decide⟩

/-- C3 counterexample: the claim states that write options given to Create
or Update are passed unmodified to the underlying set call. Update accepts
no write options: a caller passing the keyword ex routes it into the
changes mapping, where attribute assignment raises the unknown-field
ValueError and no set command is issued at all, so no option reaches the
store. -/
theorem claim_C3_counterexample :
    RedisModel.update userCls user4 [("ex", .int 60)] store4 =
      ⟨.error (.noField "ex"), user4, store4, []⟩ := by
  rfl

/-- C3 amended: write options given to Create are passed unmodified
through to the underlying store set call; Update accepts no write options,
and the set call it issues always carries none. -/
theorem claim_C3_options_forwarded_create_only (cls : ModelClass) (m : Model)
    (c : RedisClient) (k k2 : String) (kwargs : RedisKwargs)
    (changes : List (String × RValue)) (store : Store)
    (hd : m.deleted = false) (hr : cls.redis = some c)
    (hk : RedisModel.redis_key cls m = .ok k)
    (hval : ∀ nv ∈ changes, hasField cls nv.1 = true)
    (hk2 : RedisModel.redis_key cls (applyAll m changes) = .ok k2) :
    (RedisModel.create cls m kwargs store).cmds = [.set k m.values kwargs] ∧
    (RedisModel.update cls m changes store).cmds =
      [.set k2 (applyAll m changes).values ({} : RedisKwargs)] := by
  have hc := client_of_bound cls m c hd hr
  have hda : (applyAll m changes).deleted = false := by
    rw [applyAll_deleted changes m, hd]
  have hc2 := client_of_bound cls (applyAll m changes) c hda hr
  constructor
  · rw [RedisModel.create, store_to_redis_ok cls m c k kwargs store hc hk]
  · simp only [RedisModel.update, applyChanges_of_valid cls changes m hval]
    rw [store_to_redis_ok cls (applyAll m changes) c k2 {} store hc2 hk2]

/-- C3 witness: at the concrete persisted user, create with the expiry
option 60 issues exactly one set command carrying that option, and an
update of the name field issues exactly one set command carrying no
options. -/
theorem claim_C3_witness :
    user4.deleted = false ∧
    userCls.redis = some ⟨true⟩ ∧
    RedisModel.redis_key userCls user4 = .ok "user:4" ∧
    RedisModel.redis_key userCls (applyAll user4 [("name", .str "After")]) = .ok "user:4" ∧
    (RedisModel.create userCls user4 { ex := some 60 } store4).cmds =
      [.set "user:4" beforePayload { ex := some 60 }] ∧
    (RedisModel.update userCls user4 [("name", .str "After")] store4).cmds =
      [.set "user:4" [("id", .int 4), ("name", .str "After")] ({} : RedisKwargs)] := by
  refine ⟨rfl, rfl, rfl, rfl, ?_⟩
  exact claim_C3_options_forwarded_create_only userCls user4 ⟨true⟩ "user:4" "user:4"
    { ex := some 60 } [("name", .str "After")] store4 rfl rfl rfl (by decide) rfl

/-- C4: once delete has completed successfully on an instance, the deleted
flag reads true, red field values remain readable and unchanged, and every
subsequent create, update (of declared fields), delete, or callable
shorthand invocation raises the deleted-instance error. -/
theorem claim_C4_deleted_terminal (cls : ModelClass) (m : Model)
    (store store2 : Store) (kwargs : RedisKwargs)
    (changes : List (String × RValue))
    (hdel : (RedisModel.delete cls m store).res = .ok ())
    (hval : ∀ nv ∈ changes, hasField cls nv.1 = true) :
    ((RedisModel.delete cls m store).inst).deleted = true ∧
    ((RedisModel.delete cls m store).inst).values = m.values ∧
    (RedisModel.create cls ((RedisModel.delete cls m store).inst) kwargs store2).res =
      .error .deletedModel ∧
    (RedisModel.update cls ((RedisModel.delete cls m store).inst) changes store2).res =
      .error .deletedModel ∧
    (RedisModel.delete cls ((RedisModel.delete cls m store).inst) store2).res =
      .error .deletedModel ∧
    (RedisModel.call cls ((RedisModel.delete cls m store).inst) store2).res =
      .error .deletedModel := by
  have hinst := delete_ok_inv cls m store hdel
  rw [hinst]
  have hdt : (Model.mk m.values true).deleted = true := rfl
  have hcl := client_of_deleted cls { m with deleted := true } hdt
  refine ⟨rfl, rfl, ?_, ?_, ?_, ?_⟩
  · rw [RedisModel.create,
      store_to_redis_of_client_error cls _ kwargs store2 _ hcl]
  · have hda : (applyAll { m with deleted := true } changes).deleted = true := by
      rw [applyAll_deleted changes]
    have hcl2 := client_of_deleted cls (applyAll { m with deleted := true } changes) hda
    simp only [RedisModel.update,
      applyChanges_of_valid cls changes { m with deleted := true } hval]
    rw [store_to_redis_of_client_error cls _ {} store2 _ hcl2]
  · rw [RedisModel.delete, hcl]
  · rw [RedisModel.call, RedisModel.create,
      store_to_redis_of_client_error cls _ {} store2 _ hcl]

/-- C4 witness: deleting the concrete persisted user succeeds, and on the
resulting instance the flag reads true, the field values are unchanged,
and create, update, delete and the callable shorthand all raise the
deleted-instance error. -/
theorem claim_C4_witness :
    (RedisModel.delete userCls user4 store4).res = .ok () ∧
    hasField userCls "name" = true ∧
    ((RedisModel.delete userCls user4 store4).inst).deleted = true ∧
    ((RedisModel.delete userCls user4 store4).inst).values = beforePayload ∧
    (RedisModel.create userCls ((RedisModel.delete userCls user4 store4).inst) {} store4).res =
      .error .deletedModel ∧
    (RedisModel.update userCls ((RedisModel.delete userCls user4 store4).inst)
      [("name", .str "After")] store4).res = .error .deletedModel ∧
    (RedisModel.delete userCls ((RedisModel.delete userCls user4 store4).inst) store4).res =
      .error .deletedModel ∧
    (RedisModel.call userCls ((RedisModel.delete userCls user4 store4).inst) store4).res =
      .error .deletedModel := by
  have h := claim_C4_deleted_terminal userCls user4 store4 store4 {}
    [("name", .str "After")] (by decide) (by decide)
  exact ⟨by decide, by decide, h.1, h.2.1, h.2.2.1, h.2.2.2.1, h.2.2.2.2.1, h.2.2.2.2.2⟩

/-- C5: for a record whose class declares exactly one identity field, the
instance key equals the model name, a colon, and the textual form of the
identity value; the class-level key helper computes the same string and
its result does not depend on the bound client (nor does it take an
instance). -/
theorem claim_C5_key_format (cls : ModelClass) (m : Model) (f : FieldSpec)
    (v : RValue) (r : Option RedisClient)
    (hf : cls.fields.filter (fun f2 => f2.isPrimary) = [f])
    (hv : assocLookup m.values f.name = some v) :
    RedisModel.redis_key cls m = .ok (cls.modelName ++ ":" ++ v.textRepr) ∧
    RedisModel._build_redis_key cls v = cls.modelName ++ ":" ++ v.textRepr ∧
    RedisModel._build_redis_key { cls with redis := r } v =
      RedisModel._build_redis_key cls v :=
  ⟨redis_key_of_single cls m f v hf hv, rfl, rfl⟩

/-- C5 witness: the concrete user with identity value 4 has storage key
user:4, also under the key helper, and unbinding the client does not
change the helper result. -/
theorem claim_C5_witness :
    userCls.fields.filter (fun f2 => f2.isPrimary) = [⟨"id", .int, true⟩] ∧
    assocLookup user4.values "id" = some (.int 4) ∧
    RedisModel.redis_key userCls user4 = .ok "user:4" ∧
    RedisModel._build_redis_key userCls (.int 4) = "user:4" ∧
    RedisModel._build_redis_key { userCls with redis := none } (.int 4) =
      RedisModel._build_redis_key userCls (.int 4) := by
  have h := claim_C5_key_format userCls user4 ⟨"id", .int, true⟩ (.int 4) none
    (by decide) (by decide)
  exact ⟨by decide, by decide, h.1, h.2.1, h.2.2⟩

/-- C6 counterexample: the claim states that on a class declaring zero
identity fields every first key-dependent operation, Get included, raises
the identity-field-configuration error. On the zero-identity class,
construction succeeds and the class-level Get succeeds as well (it takes
the identity value explicitly and builds the key purely), returning the
stored record instead of raising the configuration error. -/
theorem claim_C6_counterexample :
    RedisModel.init noPkCls noPkPayload = .ok ⟨noPkPayload, false⟩ ∧
    RedisModel.getById noPkCls (.int 1) noPkStore =
      ⟨.ok ⟨noPkPayload, false⟩, [.get "nopk:1"]⟩ := by
  exact ⟨rfl, rfl⟩

/-- C6 amended: a class declaring zero identity fields or more than one
constructs instances successfully, and the operations needing the instance
key (instance key access, Create, Delete, the callable shorthand) raise
the no-identity-field or several-identity-fields error; the check runs at
key computation, not at class definition. Class-level Get takes the
identity value explicitly and computes its key purely, so it does not
raise the configuration error. -/
theorem claim_C6_lazy_identity_check (cls : ModelClass) (p : Payload)
    (c : RedisClient) (kwargs : RedisKwargs) (store : Store)
    (hr : cls.redis = some c)
    (hp : validatePayload cls.fields p = true)
    (hbad : cls.fields.filter (fun f => f.isPrimary) = [] ∨
      2 ≤ (cls.fields.filter (fun f => f.isPrimary)).length) :
    RedisModel.init cls p = .ok ⟨p, false⟩ ∧
    RedisModel.redis_key cls ⟨p, false⟩ = .error (configErr cls) ∧
    (RedisModel.create cls ⟨p, false⟩ kwargs store).res = .error (configErr cls) ∧
    (RedisModel.delete cls ⟨p, false⟩ store).res = .error (configErr cls) ∧
    (RedisModel.call cls ⟨p, false⟩ store).res = .error (configErr cls) := by
  have hkey : RedisModel.redis_key cls ⟨p, false⟩ = .error (configErr cls) := by
    rcases hfil : cls.fields.filter (fun f => f.isPrimary) with _ | ⟨f1, _ | ⟨f2, rest⟩⟩
    · rw [RedisModel.redis_key, hfil]
      rw [configErr, if_pos hfil]
    · rcases hbad with h0 | h2
      · rw [hfil] at h0
        exact absurd h0 (by simp)
      · rw [hfil] at h2
        simp at h2
    · rw [RedisModel.redis_key, hfil]
      rw [configErr, if_neg (by rw [hfil]; simp)]
  have hc := client_of_bound cls ⟨p, false⟩ c rfl hr
  refine ⟨by rw [RedisModel.init, if_pos hp], hkey, ?_, ?_, ?_⟩
  · rw [RedisModel.create,
      store_to_redis_of_key_error cls _ c kwargs store _ hc hkey]
  · rw [RedisModel.delete, hc, hkey]
  · rw [RedisModel.call, RedisModel.create,
      store_to_redis_of_key_error cls _ c {} store _ hc hkey]

/-- C6 witness: on the concrete zero-identity class, construction succeeds
and instance key access, Create, Delete and the callable shorthand all
raise the no-identity-field error. -/
theorem claim_C6_witness :
    noPkCls.redis = some ⟨true⟩ ∧
    validatePayload noPkCls.fields noPkPayload = true ∧
    (noPkCls.fields.filter (fun f => f.isPrimary) = [] ∨
      2 ≤ (noPkCls.fields.filter (fun f => f.isPrimary)).length) ∧
    RedisModel.init noPkCls noPkPayload = .ok ⟨noPkPayload, false⟩ ∧
    RedisModel.redis_key noPkCls ⟨noPkPayload, false⟩ = .error .noPrimaryKey ∧
    (RedisModel.create noPkCls ⟨noPkPayload, false⟩ {} noPkStore).res =
      .error .noPrimaryKey ∧
    (RedisModel.delete noPkCls ⟨noPkPayload, false⟩ noPkStore).res =
      .error .noPrimaryKey ∧
    (RedisModel.call noPkCls ⟨noPkPayload, false⟩ noPkStore).res =
      .error .noPrimaryKey := by
  have h := claim_C6_lazy_identity_check noPkCls noPkPayload ⟨true⟩ {} noPkStore
    rfl (by decide) (by decide)
  exact ⟨by decide, by decide, by decide, h.1, h.2.1, h.2.2.1, h.2.2.2.1, h.2.2.2.2⟩

/-- C7: for every bound record instance built by validated construction on
a class with exactly one identity field, Create followed by the class-level
Get at the identity value returns a record equal to the original: the
round trip through serialization, the store, and re-validating
deserialization is the identity. -/
theorem claim_C7_create_get_roundtrip (cls : ModelClass) (c : RedisClient)
    (f : FieldSpec) (p : Payload) (m : Model) (v : RValue)
    (kwargs : RedisKwargs) (store : Store)
    (hr : cls.redis = some c)
    (hf : cls.fields.filter (fun f2 => f2.isPrimary) = [f])
    (hinit : RedisModel.init cls p = .ok m)
    (hv : assocLookup m.values f.name = some v) :
    (RedisModel.create cls m kwargs store).res = .ok () ∧
    (RedisModel.getById cls v (RedisModel.create cls m kwargs store).store).res =
      .ok m := by
  obtain ⟨hval, hm⟩ := init_ok_inv cls p m hinit
  have hd : m.deleted = false := by rw [hm]
  have hvm : validatePayload cls.fields m.values = true := by rw [hm]; exact hval
  have hkey : RedisModel.redis_key cls m =
      .ok (RedisModel._build_redis_key cls v) :=
    redis_key_of_single cls m f v hf hv
  have hc := client_of_bound cls m c hd hr
  have hcr := store_to_redis_ok cls m c _ kwargs store hc hkey
  constructor
  · rw [RedisModel.create, hcr]
  · rw [RedisModel.create, hcr]
    subst hm
    simp only [RedisModel.getById, RedisModel.get, hr, RedisClient.clientGet,
      assocLookup_assocSet_self]
    cases hdc : c.decodeResponses with
    | true => simp [RedisModel.model_validate_json, hval]
    | false => simp [RedisModel.model_validate_json, hval]

/-- C7 witness: creating the concrete user on an empty store and reading
it back by its identity value 4 returns the identical record. -/
theorem claim_C7_witness :
    userCls.redis = some ⟨true⟩ ∧
    userCls.fields.filter (fun f2 => f2.isPrimary) = [⟨"id", .int, true⟩] ∧
    RedisModel.init userCls beforePayload = .ok user4 ∧
    assocLookup user4.values "id" = some (.int 4) ∧
    (RedisModel.create userCls user4 {} ([] : Store)).res = .ok () ∧
    (RedisModel.getById userCls (.int 4)
      (RedisModel.create userCls user4 {} ([] : Store)).store).res = .ok user4 := by
  have h := claim_C7_create_get_roundtrip userCls ⟨true⟩ ⟨"id", .int, true⟩
    beforePayload user4 (.int 4) {} [] rfl (by decide) (by decide) (by decide)
  exact ⟨rfl, by decide, by decide, by decide, h.1, h.2⟩

/-- C8: on a class with no bound client, every store operation on a live
instance (create, update of declared fields, delete, the callable
shorthand) and the class-level get raise the distinct unbound-client
error; get issues no store command at all. -/
theorem claim_C8_unbound_errors (cls : ModelClass) (m : Model)
    (store : Store) (kwargs : RedisKwargs)
    (changes : List (String × RValue)) (key : String)
    (hr : cls.redis = none) (hd : m.deleted = false)
    (hval : ∀ nv ∈ changes, hasField cls nv.1 = true) :
    (RedisModel.create cls m kwargs store).res = .error .unboundClient ∧
    (RedisModel.update cls m changes store).res = .error .unboundClient ∧
    (RedisModel.delete cls m store).res = .error .unboundClient ∧
    (RedisModel.call cls m store).res = .error .unboundClient ∧
    RedisModel.get cls key store = ⟨.error .unboundClient, []⟩ := by
  have hcl := client_of_unbound cls m hd hr
  refine ⟨?_, ?_, ?_, ?_, ?_⟩
  · rw [RedisModel.create,
      store_to_redis_of_client_error cls m kwargs store _ hcl]
  · have hda : (applyAll m changes).deleted = false := by
      rw [applyAll_deleted changes m, hd]
    have hcl2 := client_of_unbound cls (applyAll m changes) hda hr
    simp only [RedisModel.update, applyChanges_of_valid cls changes m hval]
    rw [store_to_redis_of_client_error cls _ {} store _ hcl2]
  · rw [RedisModel.delete, hcl]
  · rw [RedisModel.call, RedisModel.create,
      store_to_redis_of_client_error cls m {} store _ hcl]
  · simp [RedisModel.get, hr]

/-- C8 witness: on the concrete unbound class, create, update, delete, the
callable shorthand and get all raise the unbound-client error. -/
theorem claim_C8_witness :
    unboundCls.redis = none ∧
    hasField unboundCls "id" = true ∧
    (RedisModel.create unboundCls ⟨[("id", .int 1)], false⟩ {} ([] : Store)).res =
      .error .unboundClient ∧
    (RedisModel.update unboundCls ⟨[("id", .int 1)], false⟩
      [("id", .int 2)] ([] : Store)).res = .error .unboundClient ∧
    (RedisModel.delete unboundCls ⟨[("id", .int 1)], false⟩ ([] : Store)).res =
      .error .unboundClient ∧
    (RedisModel.call unboundCls ⟨[("id", .int 1)], false⟩ ([] : Store)).res =
      .error .unboundClient ∧
    RedisModel.get unboundCls "unbound:1" ([] : Store) =
      ⟨.error .unboundClient, []⟩ := by
  have h := claim_C8_unbound_errors unboundCls ⟨[("id", .int 1)], false⟩
    ([] : Store) {} [("id", .int 2)] "unbound:1" rfl rfl (by decide)
  exact ⟨rfl, by decide, h.1, h.2.1, h.2.2.1, h.2.2.2.1, h.2.2.2.2⟩

/-- C10: calling update on an instance already deleted, or on a live
instance of an unbound class, raises the fatal error only at the store
write step: every field assignment in the changes mapping has already been
applied to the in-memory instance when the error is raised, no store
command is issued, and the store is unchanged. -/
theorem claim_C10_update_mutates_before_guard (cls : ModelClass) (m : Model)
    (store : Store) (changes : List (String × RValue))
    (hval : ∀ nv ∈ changes, hasField cls nv.1 = true)
    (hg : m.deleted = true ∨ (m.deleted = false ∧ cls.redis = none)) :
    RedisModel.update cls m changes store =
      ⟨.error (if m.deleted = true then .deletedModel else .unboundClient),
        applyAll m changes, store, []⟩ := by
  have hda : (applyAll m changes).deleted = m.deleted := applyAll_deleted changes m
  simp only [RedisModel.update, applyChanges_of_valid cls changes m hval]
  rcases hg with hdel | ⟨hnd, hr⟩
  · have hcl := client_of_deleted cls (applyAll m changes) (by rw [hda, hdel])
    rw [store_to_redis_of_client_error cls _ {} store _ hcl, hdel]
    simp
  · have hcl := client_of_unbound cls (applyAll m changes) (by rw [hda, hnd]) hr
    rw [store_to_redis_of_client_error cls _ {} store _ hcl, hnd]
    simp

/-- C10 witness: updating the name field of the concrete deleted user
raises the deleted-instance error at the write step, yet the in-memory
instance already carries the new name; the store is untouched and no
command was issued. -/
theorem claim_C10_witness :
    hasField userCls "name" = true ∧
    (deletedUser4.deleted = true ∨
      (deletedUser4.deleted = false ∧ userCls.redis = none)) ∧
    RedisModel.update userCls deletedUser4 [("name", .str "After")] store4 =
      ⟨.error .deletedModel,
        { values := [("id", .int 4), ("name", .str "After")], deleted := true },
        store4, []⟩ := by
  have h := claim_C10_update_mutates_before_guard userCls deletedUser4 store4
    [("name", .str "After")] (by decide) (Or.inl rfl)
  exact ⟨by decide, Or.inl rfl, h⟩

/-- C9: for every stored value, Get produces the identical result whether
the client returns the value as raw bytes or as decoded text: the bytes
branch decodes to text before deserialization, so a class bound to a
bytes-returning client and one bound to a text-returning client give equal
results and issue the same commands on every key and store. -/
theorem claim_C9_bytes_text_equivalence (cls : ModelClass) (key : String)
    (store : Store) :
    RedisModel.get { cls with redis := some ⟨true⟩ } key store =
      RedisModel.get { cls with redis := some ⟨false⟩ } key store := by
  cases h : assocLookup store key with
  | none =>
      simp [RedisModel.get, RedisClient.clientGet, h,
        RedisModel.model_validate_json]
  | some p =>
      simp [RedisModel.get, RedisClient.clientGet, h,
        RedisModel.model_validate_json]

end TypedRedis
